import Mathlib

/-!
Verification of the MMLU-Pro A/B testing harness core
(budget-gated API client, answer extraction, checkpointing, aggregation).

Shallow embedding conventions:
* Python floats holding money and prices are modelled as rationals (ℚ);
  the claims under study are order/arithmetic facts that do not depend on
  binary rounding.
* The mutable `APIClient` object is modelled by explicit state passing on a
  `ClientState` record; a raised `BudgetExceededError` is modelled by the
  `Except.error` constructor carrying the observable state at raise time.
* The remote RPC is environment-dependent; the cost it reports back is a
  parameter of the `call` step, and the fallback extraction call is an
  oracle parameter (`Except Unit String`) for its returned text or failure.
* Strings are Lean `String`s (lists of characters); `str.upper`/`str.strip`
  and the regex character classes `\w`, `\s`, `[A-Za-z]` are modelled over
  ASCII, which covers every character class the extractor inspects.
-/

/-! ## config.py -/

/-- Per-model (input, output) prices per million tokens (`MODEL_PRICING`). -/
def MODEL_PRICING : List (String × ℚ × ℚ) :=
  [("claude-haiku-4-5-20251001", (1, 5)),
   ("claude-sonnet-4-5", (3, 15)),
   ("claude-opus-4-5", (15, 75))]

/-- Default model (`MODEL_NAME`). -/
def MODEL_NAME : String := "claude-haiku-4-5-20251001"

/-- Constant `BUDGET_CEILING_USD = 25.0`. -/
def BUDGET_CEILING_USD : ℚ := 25

/-- Constant `BUDGET_WARNING_THRESHOLD = 0.8`. -/
def BUDGET_WARNING_THRESHOLD : ℚ := 4 / 5

/-- Lookup `MODEL_PRICING.get(model_name, MODEL_PRICING[MODEL_NAME])`:
dictionary lookup with the default model's entry as fallback. -/
def pricingFor (model_name : String) : ℚ × ℚ :=
  ((MODEL_PRICING.lookup model_name).getD
    ((MODEL_PRICING.lookup MODEL_NAME).getD (0, 0)))

/-- Function `calculate_cost` from config.py: token counts priced per million tokens. -/
def calculate_cost (input_tokens output_tokens : ℕ) (model_name : String) : ℚ :=
  let pricing := pricingFor model_name
  let input_cost := ((input_tokens : ℚ) / 1000000) * pricing.1
  let output_cost := ((output_tokens : ℚ) / 1000000) * pricing.2
  input_cost + output_cost

/-! ## api_client.py — budget-tracking client state

`BUDGET_CEILING_USD` and `BUDGET_WARNING_THRESHOLD` are module constants in
the source; they appear here as explicit parameters `ceiling` and
`threshold` so that the spec's scenarios (which use other ceilings) are
statable, and are instantiated at the reference constants in witnesses. -/

/-- The mutable fields of `APIClient` relevant to budget accounting. -/
structure ClientState where
  cumulative_cost : ℚ
  total_calls : ℕ
  budget_warning_issued : Bool
  deriving DecidableEq, Repr

/-- Constructor `APIClient.__init__`: zero spend, zero calls, warning not issued. -/
def initClient : ClientState :=
  { cumulative_cost := 0, total_calls := 0, budget_warning_issued := false }

/-- Method `APIClient.check_budget(estimated_cost)`.
`Except.error s` models the `BudgetExceededError` raise with the client
left in state `s`; `Except.ok (s, warned)` models a normal return, where
`warned` records whether the one-shot 80%-threshold warning fired during
this check. -/
def check_budget (ceiling threshold : ℚ) (s : ClientState)
    (estimated_cost : ℚ) : Except ClientState (ClientState × Bool) :=
  if s.cumulative_cost + estimated_cost > ceiling then
    .error s
  else if s.budget_warning_issued = false ∧
          s.cumulative_cost ≥ ceiling * threshold then
    .ok ({ s with budget_warning_issued := true }, true)
  else
    .ok (s, false)

/-- Method `APIClient.call`: gate with the fixed estimate `0.01`, then perform the
call; the call's actual cost (computed by `calculate_cost` from the token
usage the RPC reports) is the parameter `cost`, and recording it increments
`cumulative_cost` and `total_calls`. -/
def call (ceiling threshold : ℚ) (s : ClientState) (cost : ℚ) :
    Except ClientState (ClientState × Bool) :=
  match check_budget ceiling threshold s (1 / 100) with
  | .error s1 => .error s1
  | .ok (s1, warned) =>
      .ok ({ s1 with
              cumulative_cost := s1.cumulative_cost + cost,
              total_calls := s1.total_calls + 1 }, warned)

/-- A sequence of `check_budget` calls (estimates `ests`); returns the final
state and how many times the warning event fired.  A raising check leaves
the state unchanged and the sequence moves on. -/
def run_checks (ceiling threshold : ℚ) (s : ClientState) :
    List ℚ → ClientState × ℕ
  | [] => (s, 0)
  | e :: es =>
      match check_budget ceiling threshold s e with
      | .error s1 =>
          run_checks ceiling threshold s1 es
      | .ok (s1, warned) =>
          let r := run_checks ceiling threshold s1 es
          (r.1, r.2 + (if warned then 1 else 0))

/-- A sequence of `APIClient.call` operations with actual costs `costs`;
also tracks the cost of the most recently *recorded* (non-raising) call.
A call blocked by the gate records nothing. -/
def run_calls (ceiling threshold : ℚ) (s : ClientState) (last : Option ℚ) :
    List ℚ → ClientState × Option ℚ
  | [] => (s, last)
  | c :: cs =>
      match call ceiling threshold s c with
      | .error s1 => run_calls ceiling threshold s1 last cs
      | .ok (s1, _) => run_calls ceiling threshold s1 (some c) cs

/-! ## api_client.py — `extract_answer`

Each Python regex is translated as a position matcher (match the pattern at
one start position, given the previous character for the `\b` tests) plus
the generic left-to-right `re.search` driver `searchPat`.  The texts the
patterns run over are already upper-cased, so the `re.IGNORECASE` flag is
reflected by matching upper-case literals. -/

/-- ASCII model of the regex word-character class `\w`. -/
def isWordChar (c : Char) : Bool := c.isAlpha || c.isDigit || c = '_'

/-- ASCII model of regex `\s` and of `str.strip()` whitespace. -/
def isSpaceChar (c : Char) : Bool :=
  c = ' ' || c = '\t' || c = '\n' || c = '\r' || c = '\x0b' || c = '\x0c'

/-- Membership in `'ABCDEFGHIJ'`, the answer alphabet (= regex `[A-J]`). -/
def letterAJ (c : Char) : Bool :=
  ['A', 'B', 'C', 'D', 'E', 'F', 'G', 'H', 'I', 'J'].contains c

/-- The regex class `[B-HJ]` (the alphabet minus the word-like A and I). -/
def letterBHJ (c : Char) : Bool :=
  ['B', 'C', 'D', 'E', 'F', 'G', 'H', 'J'].contains c

/-- Python `str.strip(chars)` on character lists. -/
def pyStripChars (p : Char → Bool) (xs : List Char) : List Char :=
  ((xs.dropWhile p).reverse.dropWhile p).reverse

/-- Greedy `\s*`. -/
def dropSpaces (xs : List Char) : List Char := xs.dropWhile isSpaceChar

/-- Class `\s+`: at least one whitespace character, then greedily the rest. -/
def matchSpaces1 : List Char → Option (List Char)
  | [] => none
  | c :: cs => if isSpaceChar c then some (dropSpaces cs) else none

/-- Match a literal word, returning the rest of the input. -/
def matchLit : List Char → List Char → Option (List Char)
  | [], xs => some xs
  | _ :: _, [] => none
  | l :: ls, x :: xs => if x = l then matchLit ls xs else none

/-- Regex alternation of literals, tried left to right. -/
def matchFirst : List (List Char) → List Char → Option (List Char)
  | [], _ => none
  | l :: ls, xs =>
      match matchLit l xs with
      | some r => some r
      | none => matchFirst ls xs

/-- Boundary `\b` just before a word character: start of text or a non-word char. -/
def boundaryPrev : Option Char → Bool
  | none => true
  | some p => !isWordChar p

/-- Boundary `\b` just after a word character: end of text or a non-word char. -/
def boundaryNext : List Char → Bool
  | [] => true
  | r :: _ => !isWordChar r

/-- Capture one character of class `cls` whose remaining input passes
`checkNext` (the rest of the pattern). -/
def takeLetter (cls : Char → Bool) (checkNext : List Char → Bool) :
    List Char → Option Char
  | [] => none
  | c :: rest => if cls c && checkNext rest then some c else none

/-- Driver for `re.search`: try the position matcher at each start, left to right. -/
def searchPat (tryP : Option Char → List Char → Option Char) :
    Option Char → List Char → Option Char
  | _, [] => none
  | prev, c :: cs =>
      match tryP prev (c :: cs) with
      | some r => some r
      | none => searchPat tryP (some c) cs

/-- Pattern `\b(?:answer|choice|option)\s*(?:is|:)\s*([A-J])\b` at one
position. -/
def tryP1 (prev : Option Char) (xs : List Char) : Option Char :=
  if boundaryPrev prev then
    match matchFirst ["ANSWER".data, "CHOICE".data, "OPTION".data] xs with
    | none => none
    | some r1 =>
        match matchFirst ["IS".data, [':']] (dropSpaces r1) with
        | none => none
        | some r2 => takeLetter letterAJ boundaryNext (dropSpaces r2)
  else none

/-- Tail `(?:correct|right|best)\b` of pattern 2. -/
def tailP2end (xs : List Char) : Bool :=
  match matchFirst ["CORRECT".data, "RIGHT".data, "BEST".data] xs with
  | some r => boundaryNext r
  | none => false

/-- Tail `\s+is\s+(?:the\s+)?(?:correct|right|best)\b`: what must follow the
captured letter in pattern 2 (the optional `the\s+` is tried greedily
first, then dropped, as the regex engine backtracks). -/
def tailP2 (xs : List Char) : Bool :=
  match matchSpaces1 xs with
  | none => false
  | some r1 =>
      match matchLit "IS".data r1 with
      | none => false
      | some r2 =>
          match matchSpaces1 r2 with
          | none => false
          | some r3 =>
              (match (matchLit "THE".data r3).bind matchSpaces1 with
               | some r4 => tailP2end r4
               | none => false) || tailP2end r3

/-- Pattern `\b([A-J])\s+is\s+(?:the\s+)?(?:correct|right|best)\b` at one
position. -/
def tryP2 (prev : Option Char) (xs : List Char) : Option Char :=
  if boundaryPrev prev then takeLetter letterAJ tailP2 xs else none

/-- Pattern `\b(?:correct|right|best)\s+(?:answer|choice|option)\s*(?:is|:)?\s*([A-J])\b`
at one position; when the optional `is|:` matches but the rest fails, the
engine backtracks to the empty alternative. -/
def tryP3 (prev : Option Char) (xs : List Char) : Option Char :=
  if boundaryPrev prev then
    match matchFirst ["CORRECT".data, "RIGHT".data, "BEST".data] xs with
    | none => none
    | some r1 =>
        match matchSpaces1 r1 with
        | none => none
        | some r2 =>
            match matchFirst ["ANSWER".data, "CHOICE".data, "OPTION".data] r2 with
            | none => none
            | some r3 =>
                match matchFirst ["IS".data, [':']] (dropSpaces r3) with
                | some r5 =>
                    (match takeLetter letterAJ boundaryNext (dropSpaces r5) with
                     | some c => some c
                     | none => takeLetter letterAJ boundaryNext (dropSpaces r3))
                | none => takeLetter letterAJ boundaryNext (dropSpaces r3)
  else none

/-- The punctuation class `[\.:\)]`. -/
def isP3 (c : Char) : Bool := c = '.' || c = ':' || c = ')'

/-- Suffix `\)?[\.:\)]` with the engine's backtracking on the optional close
paren: greedily consume `)` and require punctuation next, else the class
must match the current character itself. -/
def optCloseThenPunct : List Char → Bool
  | [] => false
  | d :: rest =>
      (d = ')' && (match rest with | e :: _ => isP3 e | [] => false)) || isP3 d

/-- Anchored pattern `^\s*\(?([B-HJ])\)?[\.:\)]`. -/
def tryP4 (xs : List Char) : Option Char :=
  let r1 := dropSpaces xs
  let r2 := match r1 with
    | '(' :: t => t
    | _ => r1
  takeLetter letterBHJ optCloseThenPunct r2

/-- Anchored pattern `^\s*\(([A-J])\)`. -/
def tryP5 (xs : List Char) : Option Char :=
  match dropSpaces xs with
  | '(' :: rest =>
      takeLetter letterAJ
        (fun r => match r with
          | ')' :: _ => true
          | _ => false) rest
  | _ => none

/-- Case-4 pattern `\b([B-HJ])[\.:\)]` at one position. -/
def tryC4 (prev : Option Char) (xs : List Char) : Option Char :=
  if boundaryPrev prev then
    takeLetter letterBHJ
      (fun r => match r with
        | d :: _ => isP3 d
        | [] => false) xs
  else none

/-- Case-5 pattern `(?<![A-Za-z])([A])\.(?!\w)` at one position. -/
def tryC5 (prev : Option Char) (xs : List Char) : Option Char :=
  if (match prev with
      | some p => !p.isAlpha
      | none => true) then
    takeLetter (fun c => c = 'A')
      (fun r => match r with
        | '.' :: r2 => boundaryNext r2
        | _ => false) xs
  else none

/-- Case-6 pattern `\b([B-HJ])\b` at one position. -/
def tryC6 (prev : Option Char) (xs : List Char) : Option Char :=
  if boundaryPrev prev then takeLetter letterBHJ boundaryNext xs else none

/-- Case 1: the text stripped of dots is a single alphabet letter. -/
def case1 (tu : List Char) : Option Char :=
  match pyStripChars (fun c => c = '.') tu with
  | [c] => if letterAJ c then some c else none
  | _ => none

/-- Case 2: a leading alphabet letter followed by punctuation/space/end,
with the stricter follow-set for the word-like letters A and I. -/
def case2 (tu : List Char) : Option Char :=
  match tu with
  | [] => none
  | c :: rest =>
      if letterAJ c then
        match rest with
        | [] => some c
        | d :: _ =>
            if ['.', ')', ':', ',', ' '].contains d && !(c = 'A' || c = 'I') then
              some c
            else if ['.', ')', ':'].contains d && (c = 'A' || c = 'I') then
              some c
            else none
      else none

/-- Case 3: the ordered pattern list (patterns 4 and 5 are anchored at the
start of the text). -/
def case3 (tu : List Char) : Option Char :=
  match searchPat tryP1 none tu with
  | some c => some c
  | none =>
      match searchPat tryP2 none tu with
      | some c => some c
      | none =>
          match searchPat tryP3 none tu with
          | some c => some c
          | none =>
              match tryP4 tu with
              | some c => some c
              | none => tryP5 tu

/-- Cases 1–6 of `extract_answer` over the stripped, upper-cased text. -/
def extract_answer_core (tu : List Char) : Option Char :=
  match case1 tu with
  | some c => some c
  | none =>
      match case2 tu with
      | some c => some c
      | none =>
          match case3 tu with
          | some c => some c
          | none =>
              match searchPat tryC4 none tu with
              | some c => some c
              | none =>
                  match searchPat tryC5 none tu with
                  | some c => some c
                  | none => searchPat tryC6 none tu

/-- Function `extract_answer`: the answer letter A–J extracted from a model
response, or `none`. -/
def extract_answer (response_text : String) : Option Char :=
  if response_text.data = [] then none
  else
    extract_answer_core
      ((pyStripChars isSpaceChar response_text.data).map Char.toUpper)

/-- The first alphabet character found scanning left to right. -/
def firstLetterAJ : List Char → Option Char
  | [] => none
  | c :: cs => if letterAJ c then some c else firstLetterAJ cs

/-- The LLM-fallback branch of `extract_answer_with_llm_fallback`:
strip/upper the fallback response's `answer_text`, take its first alphabet
character, and default to `'A'` when the call failed or no alphabet
character occurs. -/
def fallbackGuess (fallbackCall : Except Unit String) : Char :=
  match fallbackCall with
  | .error _ => 'A'
  | .ok txt =>
      match firstLetterAJ ((pyStripChars isSpaceChar txt.data).map Char.toUpper) with
      | some c => c
      | none => 'A'

/-- Function `extract_answer_with_llm_fallback`.  The single fallback RPC is the
oracle `fallbackCall`: `.ok txt` is the `answer_text` it returns, `.error`
models any exception it raises (budget gate, RPC failure). -/
def extract_answer_with_llm_fallback (response_text : String)
    (fallbackCall : Except Unit String) : Char :=
  match extract_answer response_text with
  | some e => if letterAJ e then e else fallbackGuess fallbackCall
  | none => fallbackGuess fallbackCall

/-! ## checkpoint.py -/

/-- The `TestResult` dataclass. -/
structure TestResult where
  question_id : String
  subject : String
  condition : String
  correct_answer : String
  model_answer : String
  is_correct : Bool
  input_tokens : ℕ
  output_tokens : ℕ
  latency_sec : ℚ
  cost_usd : ℚ
  deriving DecidableEq, Repr

/-- JSON scalar values appearing in a serialized `TestResult` dict. -/
inductive JVal where
  | s (v : String)
  | b (v : Bool)
  | n (v : ℕ)
  | q (v : ℚ)
  deriving DecidableEq, Repr

/-- Serialisation `dataclasses.asdict` of a `TestResult`. -/
def asdictTR (r : TestResult) : List (String × JVal) :=
  [("question_id", .s r.question_id),
   ("subject", .s r.subject),
   ("condition", .s r.condition),
   ("correct_answer", .s r.correct_answer),
   ("model_answer", .s r.model_answer),
   ("is_correct", .b r.is_correct),
   ("input_tokens", .n r.input_tokens),
   ("output_tokens", .n r.output_tokens),
   ("latency_sec", .q r.latency_sec),
   ("cost_usd", .q r.cost_usd)]

/-- Reconstruction `TestResult(**data)`: succeeds exactly when the dict carries the ten
`TestResult` fields with rightly-typed values and nothing else; any other
dict makes the constructor raise (`none`). -/
def trOfDict (d : List (String × JVal)) : Option TestResult :=
  match d.lookup "question_id", d.lookup "subject", d.lookup "condition",
        d.lookup "correct_answer", d.lookup "model_answer",
        d.lookup "is_correct", d.lookup "input_tokens",
        d.lookup "output_tokens", d.lookup "latency_sec",
        d.lookup "cost_usd" with
  | some (.s qid), some (.s subj), some (.s cond), some (.s ca),
    some (.s ma), some (.b ic), some (.n it), some (.n ot),
    some (.q ls), some (.q cu) =>
      if d.length = 10 then
        some { question_id := qid, subject := subj, condition := cond,
               correct_answer := ca, model_answer := ma, is_correct := ic,
               input_tokens := it, output_tokens := ot, latency_sec := ls,
               cost_usd := cu }
      else none
  | _, _, _, _, _, _, _, _, _, _ => none

/-- One line of the checkpoint JSONL file as `_load_existing` sees it:
blank after strip; a parsed JSON object holding the fields the loader
reads (`question_id` is `none` when the key is missing; a present id is
kept as saved, and the loader's `if question_id:` truthiness test skips
both `none` and the empty string); or `malformed`, a line whose
`json.loads` raises (e.g. a trailing partial line from a crash
mid-write). -/
inductive Line where
  | blank
  | obj (question_id : Option String)
        (baseline_result scaffolded_result : Option (List (String × JVal)))
  | malformed
  deriving DecidableEq, Repr

/-- The in-memory checkpoint state: `_completed_ids` and `_results`. -/
structure CMState where
  completed_ids : Finset String
  results : List TestResult
  deriving DecidableEq

/-- The fresh state: nothing completed, no results. -/
def emptyCM : CMState := { completed_ids := ∅, results := [] }

/-- Reconstruct and append the `TestResult` from an optional result dict;
`none` models the constructor raising on a bad dict. -/
def appendResult (st : CMState) :
    Option (List (String × JVal)) → Option CMState
  | none => some st
  | some d =>
      match trOfDict d with
      | none => none
      | some r => some { st with results := st.results ++ [r] }

/-- One iteration of the loader's loop, inside its `try`; `none` models an
exception escaping to the outer handler.  The `if question_id:` guard is
falsy both for a missing key and for the empty string, and only inside it
are the id recorded and the result dicts reconstructed. -/
def processLine (st : CMState) : Line → Option CMState
  | .blank => some st
  | .malformed => none
  | .obj qid b sc =>
      match qid with
      | none => some st
      | some q =>
          if q = "" then some st
          else
            match appendResult
                { st with completed_ids := insert q st.completed_ids } b with
            | none => none
            | some st1 => appendResult st1 sc

/-- The loader's loop over the whole file. -/
def runLines (st : CMState) : List Line → Option CMState
  | [] => some st
  | l :: ls =>
      match processLine st l with
      | none => none
      | some st1 => runLines st1 ls

/-- Loader `CheckpointManager._load_existing`: `none` is a missing file (start
fresh); an exception anywhere in the loop is caught by the one outer
handler, which resets both fields to empty. -/
def load_existing (file : Option (List Line)) : CMState :=
  match file with
  | none => emptyCM
  | some lines =>
      match runLines emptyCM lines with
      | some st => st
      | none => emptyCM

/-- Query `CheckpointManager.is_completed`. -/
def is_completed (st : CMState) (question_id : String) : Bool :=
  decide (question_id ∈ st.completed_ids)

/-- The JSONL record `save_question` appends for one question. -/
def savedLine (question_id : String)
    (baseline_result scaffolded_result : TestResult) : Line :=
  .obj (some question_id) (some (asdictTR baseline_result))
       (some (asdictTR scaffolded_result))

/-- Method `CheckpointManager.save_question`: append one record to the durable
file, then update the in-memory completed-set and result list. -/
def save_question (file : List Line) (st : CMState) (question_id : String)
    (baseline_result scaffolded_result : TestResult) :
    List Line × CMState :=
  (file ++ [savedLine question_id baseline_result scaffolded_result],
   { completed_ids := insert question_id st.completed_ids,
     results := st.results ++ [baseline_result, scaffolded_result] })

/-! ## evaluator.py -/

/-- The `AggregatedMetrics` record; `cost_per_correct_usd = none` models
the `float('inf')` sentinel used when no answer is correct. -/
structure AggregatedMetrics where
  condition : String
  total_questions : ℕ
  correct_count : ℕ
  accuracy_pct : ℚ
  total_cost_usd : ℚ
  cost_per_correct_usd : Option ℚ
  deriving DecidableEq, Repr

/-- The conditions in first-occurrence order (Python dict key order). -/
def conditionsOf (results : List TestResult) : List String :=
  results.foldl
    (fun acc r =>
      if acc.contains r.condition then acc else acc ++ [r.condition]) []

/-- The per-condition body of `aggregate_results`. -/
def aggregateOne (condition : String) (rs : List TestResult) :
    AggregatedMetrics :=
  let total := rs.length
  let correct := (rs.filter (fun r => r.is_correct)).length
  let total_cost := (rs.map (fun r => r.cost_usd)).sum
  { condition := condition,
    total_questions := total,
    correct_count := correct,
    accuracy_pct := if total > 0 then (correct : ℚ) / (total : ℚ) * 100 else 0,
    total_cost_usd := total_cost,
    cost_per_correct_usd :=
      if correct > 0 then some (total_cost / (correct : ℚ)) else none }

/-- Function `aggregate_results`: group by condition (insertion order, membership by
equality of condition tags), then aggregate each group. -/
def aggregate_results (results : List TestResult) :
    List (String × AggregatedMetrics) :=
  (conditionsOf results).map
    (fun c => (c, aggregateOne c (results.filter (fun r => r.condition == c))))

/-- A line the loader's loop survives: blank, or an object whose present
result dicts decode (so `TestResult(**d)` does not raise). -/
def lineOk : Line → Bool
  | .blank => true
  | .malformed => false
  | .obj qid b sc =>
      match qid with
      | none => true
      | some _ =>
          (match b with
           | none => true
           | some d => (trOfDict d).isSome) &&
          (match sc with
           | none => true
           | some d => (trOfDict d).isSome)

/-- A concrete `TestResult` used in scenario instantiations. -/
def sampleTR : TestResult :=
  { question_id := "q1", subject := "math", condition := "baseline",
    correct_answer := "A", model_answer := "A", is_correct := true,
    input_tokens := 10, output_tokens := 2, latency_sec := 1,
    cost_usd := 3 / 1000 }

/-- A second concrete `TestResult` (scaffolded condition, incorrect). -/
def sampleTR2 : TestResult :=
  { question_id := "q1", subject := "math", condition := "scaffolded",
    correct_answer := "A", model_answer := "B", is_correct := false,
    input_tokens := 12, output_tokens := 3, latency_sec := 2,
    cost_usd := 7 / 1000 }

/-! ## Helper lemmas: the budget gate -/

/-- Exhaustive case analysis of `check_budget`. -/
theorem check_budget_cases (ceiling threshold : ℚ) (s : ClientState) (e : ℚ) :
    (s.cumulative_cost + e > ceiling ∧
       check_budget ceiling threshold s e = .error s) ∨
    (¬ s.cumulative_cost + e > ceiling ∧
       (s.budget_warning_issued = false ∧
         s.cumulative_cost ≥ ceiling * threshold) ∧
       check_budget ceiling threshold s e =
         .ok ({ s with budget_warning_issued := true }, true)) ∨
    (¬ s.cumulative_cost + e > ceiling ∧
       ¬ (s.budget_warning_issued = false ∧
            s.cumulative_cost ≥ ceiling * threshold) ∧
       check_budget ceiling threshold s e = .ok (s, false)) := by
  by_cases h1 : s.cumulative_cost + e > ceiling
  · exact .inl ⟨h1, by simp [check_budget, h1]⟩
  · by_cases h2 : s.budget_warning_issued = false ∧
        s.cumulative_cost ≥ ceiling * threshold
    · exact .inr (.inl ⟨h1, h2, by simp [check_budget, h1, h2]⟩)
    · exact .inr (.inr ⟨h1, h2, by simp [check_budget, h1, h2]⟩)

/-- A raising `call` leaves the state exactly as it was. -/
theorem call_error_eq {ceiling threshold cost : ℚ} {s s1 : ClientState}
    (h : call ceiling threshold s cost = .error s1) : s1 = s := by
  rcases check_budget_cases ceiling threshold s (1 / 100) with
    ⟨_, he⟩ | ⟨_, _, he⟩ | ⟨_, _, he⟩ <;>
    · unfold call at h
      rw [he] at h
      simp_all

/-- A successful `call` was gated (`spend + 0.01 ≤ ceiling`) and records
exactly the actual cost. -/
theorem call_ok_cost {ceiling threshold cost : ℚ} {s s1 : ClientState}
    {w : Bool} (h : call ceiling threshold s cost = .ok (s1, w)) :
    s.cumulative_cost + 1 / 100 ≤ ceiling ∧
    s1.cumulative_cost = s.cumulative_cost + cost := by
  rcases check_budget_cases ceiling threshold s (1 / 100) with
    ⟨h1, he⟩ | ⟨h1, h2, he⟩ | ⟨h1, h2, he⟩
  · unfold call at h
    rw [he] at h
    exact absurd h (by simp)
  · unfold call at h
    rw [he] at h
    simp only [Except.ok.injEq, Prod.mk.injEq] at h
    obtain ⟨hs, -⟩ := h
    refine ⟨le_of_not_lt h1, ?_⟩
    rw [← hs]
  · unfold call at h
    rw [he] at h
    simp only [Except.ok.injEq, Prod.mk.injEq] at h
    obtain ⟨hs, -⟩ := h
    refine ⟨le_of_not_lt h1, ?_⟩
    rw [← hs]

/-- Once the warning flag is set, `check_budget` either raises or returns
the state untouched with no warning event. -/
theorem check_budget_flag_true (ceiling threshold e : ℚ) {s : ClientState}
    (hw : s.budget_warning_issued = true) :
    check_budget ceiling threshold s e = .error s ∨
    check_budget ceiling threshold s e = .ok (s, false) := by
  rcases check_budget_cases ceiling threshold s e with
    ⟨_, he⟩ | ⟨_, h2, he⟩ | ⟨_, _, he⟩
  · exact .inl he
  · rw [h2.1] at hw
    exact absurd hw (by simp)
  · exact .inr he

/-- With the warning flag already set, no check in a sequence ever fires
the warning event again. -/
theorem run_checks_flag_true (ceiling threshold : ℚ) (ests : List ℚ) :
    ∀ s : ClientState, s.budget_warning_issued = true →
      (run_checks ceiling threshold s ests).2 = 0 := by
  induction ests with
  | nil => intro s _; rfl
  | cons e es ih =>
      intro s hw
      rcases check_budget_flag_true ceiling threshold e hw with he | he <;>
        simp [run_checks, he, ih s hw]

/-- A warning event sets the flag. -/
theorem check_budget_warned_flag {ceiling threshold e : ℚ}
    {s s1 : ClientState}
    (h : check_budget ceiling threshold s e = .ok (s1, true)) :
    s1.budget_warning_issued = true := by
  rcases check_budget_cases ceiling threshold s e with
    ⟨_, he⟩ | ⟨_, _, he⟩ | ⟨_, _, he⟩ <;> rw [he] at h
  · exact absurd h (by simp)
  · simp only [Except.ok.injEq, Prod.mk.injEq] at h
    obtain ⟨hs, -⟩ := h
    rw [← hs]
  · exact absurd h (by simp)

/-- Over any sequence of budget checks the warning fires at most once. -/
theorem run_checks_count_le_one (ceiling threshold : ℚ) (ests : List ℚ) :
    ∀ s : ClientState, (run_checks ceiling threshold s ests).2 ≤ 1 := by
  induction ests with
  | nil => intro s; exact Nat.zero_le 1
  | cons e es ih =>
      intro s
      cases hc : check_budget ceiling threshold s e with
      | error s1 => simp only [run_checks, hc]; exact ih s1
      | ok p =>
          obtain ⟨s1, w⟩ := p
          cases w with
          | false => simp only [run_checks, hc]; simpa using ih s1
          | true =>
              simp only [run_checks, hc, if_true]
              have h0 := run_checks_flag_true ceiling threshold es s1
                (check_budget_warned_flag hc)
              omega

/-- Invariant: the cumulative spend never exceeds the ceiling by more than
the cost of the most recently recorded call. -/
theorem run_calls_invariant (ceiling threshold : ℚ) (costs : List ℚ) :
    ∀ (s : ClientState) (last : Option ℚ),
      s.cumulative_cost ≤ ceiling + last.getD 0 →
      (run_calls ceiling threshold s last costs).1.cumulative_cost ≤
        ceiling + ((run_calls ceiling threshold s last costs).2.getD 0) := by
  induction costs with
  | nil => intro s last h; exact h
  | cons c cs ih =>
      intro s last h
      cases hc : call ceiling threshold s c with
      | error s1 =>
          have hs1 : s1 = s := call_error_eq hc
          simp only [run_calls, hc]
          exact ih s1 last (by rw [hs1]; exact h)
      | ok p =>
          obtain ⟨s1, w⟩ := p
          obtain ⟨hle, hcum⟩ := call_ok_cost hc
          simp only [run_calls, hc]
          refine ih s1 (some c) ?_
      /- the gate held before the call, so the new spend overshoots
         the ceiling by less than the recorded cost -/
          rw [hcum]
          simp only [Option.getD_some]
          linarith

/-- Running a sequence of calls decomposes over list append, so every
intermediate point of a run is the final state of a prefix run. -/
theorem run_calls_append (ceiling threshold : ℚ) (pre : List ℚ) :
    ∀ (suf : List ℚ) (s : ClientState) (last : Option ℚ),
      run_calls ceiling threshold s last (pre ++ suf) =
        run_calls ceiling threshold
          (run_calls ceiling threshold s last pre).1
          (run_calls ceiling threshold s last pre).2 suf := by
  induction pre with
  | nil => intro suf s last; rfl
  | cons c cs ih =>
      intro suf s last
      cases hc : call ceiling threshold s c with
      | error s1 => simp only [List.cons_append, run_calls, hc]; exact ih suf s1 last
      | ok p =>
          obtain ⟨s1, w⟩ := p
          simp only [List.cons_append, run_calls, hc]
          exact ih suf s1 (some c)

/-! ## Claim theorems -/

/-- C1: budget overshoot is bounded by one call.  Over every sequence of
`APIClient.call` operations from a seed spend not exceeding the ceiling,
the cumulative spend at every point exceeds the ceiling by at most the
actual cost of the single most recently recorded call (`0` while none is
recorded): the first conjunct is the inductive bound, the second shows
every intermediate point of a run is the final state of a prefix run, so
the bound holds at every point. -/
theorem budget_overshoot_bounded_by_one_call :
    (∀ (ceiling threshold : ℚ) (costs : List ℚ) (s : ClientState)
        (last : Option ℚ),
        s.cumulative_cost ≤ ceiling + last.getD 0 →
        (run_calls ceiling threshold s last costs).1.cumulative_cost ≤
          ceiling + ((run_calls ceiling threshold s last costs).2.getD 0)) ∧
    (∀ (ceiling threshold : ℚ) (pre suf : List ℚ) (s : ClientState)
        (last : Option ℚ),
        run_calls ceiling threshold s last (pre ++ suf) =
          run_calls ceiling threshold
            (run_calls ceiling threshold s last pre).1
            (run_calls ceiling threshold s last pre).2 suf) :=
  ⟨fun ceiling threshold costs s last h =>
      run_calls_invariant ceiling threshold costs s last h,
   fun ceiling threshold pre suf s last =>
      run_calls_append ceiling threshold pre suf s last⟩

/-- Witness for C1 at the reference constants: three calls of actual cost
24.995 each against the 25.00 ceiling, starting from zero spend. -/
theorem budget_overshoot_bounded_by_one_call_witness :
    (run_calls BUDGET_CEILING_USD BUDGET_WARNING_THRESHOLD initClient none
        [4999/200, 4999/200, 4999/200]).1.cumulative_cost ≤
      BUDGET_CEILING_USD +
        ((run_calls BUDGET_CEILING_USD BUDGET_WARNING_THRESHOLD initClient
            none [4999/200, 4999/200, 4999/200]).2.getD 0) :=
  budget_overshoot_bounded_by_one_call.1 BUDGET_CEILING_USD
    BUDGET_WARNING_THRESHOLD [4999/200, 4999/200, 4999/200] initClient none
    (by norm_num [initClient, BUDGET_CEILING_USD])

/-- C2: `check_budget(estimatedCost)` raises `BudgetExceededError` exactly
when `cumulativeSpend + estimatedCost > ceiling`, for every non-negative
spend and estimate; in particular with ceiling 10.00, cumulative spend
9.99 and estimate 0.02 it raises. -/
theorem checkGate_fails_iff_budget_exceeded :
    (∀ (ceiling threshold spend est : ℚ) (n : ℕ) (w : Bool),
        0 ≤ spend → 0 ≤ est →
        ((∃ s1, check_budget ceiling threshold ⟨spend, n, w⟩ est =
            .error s1) ↔ spend + est > ceiling)) ∧
    check_budget 10 BUDGET_WARNING_THRESHOLD ⟨999/100, 0, false⟩ (2/100) =
      .error ⟨999/100, 0, false⟩ := by
  constructor
  · intro ceiling threshold spend est n w _ _
    constructor
    · rintro ⟨s1, he⟩
      rcases check_budget_cases ceiling threshold ⟨spend, n, w⟩ est with
        ⟨h1, _⟩ | ⟨_, _, he2⟩ | ⟨_, _, he2⟩
      · exact h1
      · rw [he2] at he; exact absurd he (by simp)
      · rw [he2] at he; exact absurd he (by simp)
    · intro h1
      exact ⟨⟨spend, n, w⟩, by simp [check_budget, h1]⟩
  · have h1 : (999/100 : ℚ) + 2/100 > 10 := by norm_num
    simp [check_budget, h1]

/-- Witness for C2: the spec's scenario discharges the non-negativity
hypotheses at spend 9.99, estimate 0.02, ceiling 10.00. -/
theorem checkGate_fails_iff_budget_exceeded_witness :
    (∃ s1, check_budget 10 BUDGET_WARNING_THRESHOLD ⟨999/100, 0, false⟩
        (2/100) = .error s1) ↔ (999/100 : ℚ) + 2/100 > 10 :=
  checkGate_fails_iff_budget_exceeded.1 10 BUDGET_WARNING_THRESHOLD
    (999/100) (2/100) 0 false (by norm_num) (by norm_num)

/-- C8: the budget warning is one-shot.  Over every sequence of
`check_budget` calls the warning event fires at most once; once the
warning-issued flag is set it never fires again; and a single check fires
the event exactly when it finds the flag unset, the gate does not fail,
and the cumulative spend is at or past `threshold × ceiling`. -/
theorem budget_warning_is_one_shot :
    (∀ (ceiling threshold : ℚ) (ests : List ℚ) (s : ClientState),
        (run_checks ceiling threshold s ests).2 ≤ 1) ∧
    (∀ (ceiling threshold : ℚ) (ests : List ℚ) (s : ClientState),
        s.budget_warning_issued = true →
        (run_checks ceiling threshold s ests).2 = 0) ∧
    (∀ (ceiling threshold e : ℚ) (s : ClientState),
        (∃ s1, check_budget ceiling threshold s e = .ok (s1, true)) ↔
          (s.budget_warning_issued = false ∧
           ¬ s.cumulative_cost + e > ceiling ∧
           s.cumulative_cost ≥ ceiling * threshold)) := by
  refine ⟨fun ceiling threshold ests s =>
      run_checks_count_le_one ceiling threshold ests s,
    fun ceiling threshold ests s hw =>
      run_checks_flag_true ceiling threshold ests s hw,
    fun ceiling threshold e s => ⟨?_, ?_⟩⟩
  · rintro ⟨s1, he⟩
    rcases check_budget_cases ceiling threshold s e with
      ⟨_, he2⟩ | ⟨h1, h2, he2⟩ | ⟨_, _, he2⟩ <;> rw [he2] at he
    · exact absurd he (by simp)
    · exact ⟨h2.1, h1, h2.2⟩
    · exact absurd he (by simp)
  · rintro ⟨hw, h1, h2⟩
    exact ⟨{ s with budget_warning_issued := true },
      by simp [check_budget, h1, hw, h2]⟩

/-- Witness for C8: a client at 80% of the 25.00 ceiling with the flag
unset fires the warning, and with the flag set a sequence of checks fires
none. -/
theorem budget_warning_is_one_shot_witness :
    ((∃ s1, check_budget BUDGET_CEILING_USD BUDGET_WARNING_THRESHOLD
        ⟨20, 5, false⟩ (1/100) = .ok (s1, true)) ↔
      ((false : Bool) = false ∧ ¬ (20 : ℚ) + 1/100 > BUDGET_CEILING_USD ∧
       (20 : ℚ) ≥ BUDGET_CEILING_USD * BUDGET_WARNING_THRESHOLD)) ∧
    (run_checks BUDGET_CEILING_USD BUDGET_WARNING_THRESHOLD
        ⟨20, 5, true⟩ [1/100, 1/100]).2 = 0 :=
  ⟨budget_warning_is_one_shot.2.2 BUDGET_CEILING_USD
      BUDGET_WARNING_THRESHOLD (1/100) ⟨20, 5, false⟩,
   budget_warning_is_one_shot.2.1 BUDGET_CEILING_USD
      BUDGET_WARNING_THRESHOLD [1/100, 1/100] ⟨20, 5, true⟩ rfl⟩

/-- C9: budget-exceeded failure is atomic: whenever `APIClient.call`
raises `BudgetExceededError`, the cumulative cost, the call counter and
the warning flag all keep their prior values — the gate raises before the
warning check and before any spend is recorded. -/
theorem budget_exceeded_error_is_atomic (ceiling threshold cost : ℚ)
    (s s1 : ClientState)
    (h : call ceiling threshold s cost = .error s1) :
    s1.cumulative_cost = s.cumulative_cost ∧
    s1.total_calls = s.total_calls ∧
    s1.budget_warning_issued = s.budget_warning_issued := by
  rw [call_error_eq h]
  exact ⟨rfl, rfl, rfl⟩

/-- Witness for C9: a call of cost 1.00 against a zero ceiling raises and
leaves the fresh client untouched. -/
theorem budget_exceeded_error_is_atomic_witness :
    initClient.cumulative_cost = initClient.cumulative_cost ∧
    initClient.total_calls = initClient.total_calls ∧
    initClient.budget_warning_issued = initClient.budget_warning_issued :=
  budget_exceeded_error_is_atomic 0 BUDGET_WARNING_THRESHOLD 1 initClient
    initClient (by norm_num [call, check_budget, initClient])

/-- C10: `calculate_cost` is `input_tokens/1e6` times the model's input
price plus `output_tokens/1e6` times its output price, and a model name
absent from the price table silently falls back to the default model's
prices instead of failing. -/
theorem calculate_cost_formula_and_default :
    (∀ (it ot : ℕ) (m : String) (ip op : ℚ),
        MODEL_PRICING.lookup m = some (ip, op) →
        calculate_cost it ot m =
          ((it : ℚ) / 1000000) * ip + ((ot : ℚ) / 1000000) * op) ∧
    (∀ (it ot : ℕ) (m : String),
        MODEL_PRICING.lookup m = none →
        calculate_cost it ot m = calculate_cost it ot MODEL_NAME) := by
  constructor
  · intro it ot m ip op hm
    simp [calculate_cost, pricingFor, hm]
  · intro it ot m hm
    have hn : MODEL_PRICING.lookup MODEL_NAME = some (1, 5) := rfl
    simp [calculate_cost, pricingFor, hm, hn]

/-- Witness for C10: the sonnet row of the table, and an unknown model
name costed at the default (haiku) prices. -/
theorem calculate_cost_formula_and_default_witness :
    calculate_cost 2000000 1000000 "claude-sonnet-4-5" =
      ((2000000 : ℚ) / 1000000) * 3 + ((1000000 : ℚ) / 1000000) * 15 ∧
    calculate_cost 7 9 "no-such-model" = calculate_cost 7 9 MODEL_NAME :=
  ⟨calculate_cost_formula_and_default.1 2000000 1000000
      "claude-sonnet-4-5" 3 15 (by rfl),
   calculate_cost_formula_and_default.2 7 9 "no-such-model" (by rfl)⟩

/-! ## Helper lemmas: answer extraction returns only alphabet letters -/

/-- A captured character always satisfies its character class. -/
theorem takeLetter_mem {cls : Char → Bool} {k : List Char → Bool} :
    ∀ {xs : List Char} {c : Char},
      takeLetter cls k xs = some c → cls c = true := by
  intro xs c h
  cases xs with
  | nil => exact absurd h (by simp [takeLetter])
  | cons a rest =>
      simp only [takeLetter] at h
      split at h
      · next hg =>
          obtain rfl : a = c := by injection h
          exact ((Bool.and_eq_true _ _).mp hg).1
      · exact absurd h (by simp)

/-- Search only returns what the position matcher returns. -/
theorem searchPat_mem {tryP : Option Char → List Char → Option Char}
    {P : Char → Bool}
    (hstep : ∀ prev xs c, tryP prev xs = some c → P c = true) :
    ∀ (xs : List Char) (prev : Option Char) {c : Char},
      searchPat tryP prev xs = some c → P c = true := by
  intro xs
  induction xs with
  | nil => intro prev c h; exact absurd h (by simp [searchPat])
  | cons a rest ih =>
      intro prev c h
      unfold searchPat at h
      cases htry : tryP prev (a :: rest) with
      | some r =>
          rw [htry] at h
          have h2 : some r = some c := h
          obtain rfl : r = c := by injection h2
          exact hstep prev (a :: rest) _ htry
      | none =>
          rw [htry] at h
          exact ih (some a) h

/-- Every letter of `[B-HJ]` is in the alphabet `[A-J]`. -/
theorem letterBHJ_le (c : Char) (h : letterBHJ c = true) :
    letterAJ c = true := by
  have h2 : List.elem c ['B', 'C', 'D', 'E', 'F', 'G', 'H', 'J'] = true := h
  have hm := List.elem_iff.mp h2
  fin_cases hm <;> rfl

/-- Pattern 1 captures only alphabet letters. -/
theorem tryP1_mem (prev : Option Char) (xs : List Char) (c : Char)
    (h : tryP1 prev xs = some c) : letterAJ c = true := by
  unfold tryP1 at h
  split at h
  · split at h
    · exact absurd h (by simp)
    · split at h
      · exact absurd h (by simp)
      · exact takeLetter_mem h
  · exact absurd h (by simp)

/-- Pattern 2 captures only alphabet letters. -/
theorem tryP2_mem (prev : Option Char) (xs : List Char) (c : Char)
    (h : tryP2 prev xs = some c) : letterAJ c = true := by
  unfold tryP2 at h
  split at h
  · exact takeLetter_mem h
  · exact absurd h (by simp)

/-- Pattern 3 captures only alphabet letters. -/
theorem tryP3_mem (prev : Option Char) (xs : List Char) (c : Char)
    (h : tryP3 prev xs = some c) : letterAJ c = true := by
  unfold tryP3 at h
  repeat' split at h
  all_goals
    first
    | exact takeLetter_mem h
    | (obtain rfl := Option.some.inj h
       exact takeLetter_mem (by assumption))
    | exact absurd h (by simp)

/-- Pattern 4 captures only `[B-HJ]` letters. -/
theorem tryP4_mem (xs : List Char) (c : Char)
    (h : tryP4 xs = some c) : letterBHJ c = true :=
  takeLetter_mem h

/-- Pattern 5 captures only alphabet letters. -/
theorem tryP5_mem (xs : List Char) (c : Char)
    (h : tryP5 xs = some c) : letterAJ c = true := by
  unfold tryP5 at h
  split at h
  · exact takeLetter_mem h
  · exact absurd h (by simp)

/-- The case-4 pattern captures only `[B-HJ]` letters. -/
theorem tryC4_mem (prev : Option Char) (xs : List Char) (c : Char)
    (h : tryC4 prev xs = some c) : letterBHJ c = true := by
  unfold tryC4 at h
  split at h
  · exact takeLetter_mem h
  · exact absurd h (by simp)

/-- The case-5 pattern captures only the letter A. -/
theorem tryC5_mem (prev : Option Char) (xs : List Char) (c : Char)
    (h : tryC5 prev xs = some c) : letterAJ c = true := by
  unfold tryC5 at h
  split at h
  · have hc := takeLetter_mem h
    have : c = 'A' := by simpa using hc
    rw [this]
    rfl
  · exact absurd h (by simp)

/-- The case-6 pattern captures only `[B-HJ]` letters. -/
theorem tryC6_mem (prev : Option Char) (xs : List Char) (c : Char)
    (h : tryC6 prev xs = some c) : letterBHJ c = true := by
  unfold tryC6 at h
  split at h
  · exact takeLetter_mem h
  · exact absurd h (by simp)

/-- Case 1 returns only alphabet letters. -/
theorem case1_mem (tu : List Char) (c : Char)
    (h : case1 tu = some c) : letterAJ c = true := by
  unfold case1 at h
  repeat' split at h
  all_goals
    first
    | (obtain rfl := Option.some.inj h; assumption)
    | exact absurd h (by simp)

/-- Case 2 returns only alphabet letters. -/
theorem case2_mem (tu : List Char) (c : Char)
    (h : case2 tu = some c) : letterAJ c = true := by
  unfold case2 at h
  repeat' split at h
  all_goals
    first
    | (obtain rfl := Option.some.inj h; assumption)
    | exact absurd h (by simp)

/-- Case 3 returns only alphabet letters. -/
theorem case3_mem (tu : List Char) (c : Char)
    (h : case3 tu = some c) : letterAJ c = true := by
  unfold case3 at h
  split at h
  · next heq =>
      obtain rfl := Option.some.inj h
      exact searchPat_mem tryP1_mem tu none heq
  · split at h
    · next heq =>
        obtain rfl := Option.some.inj h
        exact searchPat_mem tryP2_mem tu none heq
    · split at h
      · next heq =>
          obtain rfl := Option.some.inj h
          exact searchPat_mem tryP3_mem tu none heq
      · split at h
        · next heq =>
            obtain rfl := Option.some.inj h
            exact letterBHJ_le _ (tryP4_mem tu _ heq)
        · exact tryP5_mem tu c h

/-- Every successful extraction is an alphabet letter. -/
theorem extract_answer_core_mem (tu : List Char) (c : Char)
    (h : extract_answer_core tu = some c) : letterAJ c = true := by
  unfold extract_answer_core at h
  split at h
  · next heq =>
      obtain rfl := Option.some.inj h
      exact case1_mem tu _ heq
  · split at h
    · next heq =>
        obtain rfl := Option.some.inj h
        exact case2_mem tu _ heq
    · split at h
      · next heq =>
          obtain rfl := Option.some.inj h
          exact case3_mem tu _ heq
      · split at h
        · next heq =>
            obtain rfl := Option.some.inj h
            exact letterBHJ_le _ (searchPat_mem tryC4_mem tu none heq)
        · split at h
          · next heq =>
              obtain rfl := Option.some.inj h
              exact searchPat_mem tryC5_mem tu none heq
          · exact letterBHJ_le _ (searchPat_mem tryC6_mem tu none h)

/-- Extraction returns only alphabet letters. -/
theorem extract_answer_mem (s : String) (c : Char)
    (h : extract_answer s = some c) : letterAJ c = true := by
  unfold extract_answer at h
  split at h
  · exact absurd h (by simp)
  · exact extract_answer_core_mem _ c h

/-- The fallback scan returns only alphabet letters. -/
theorem firstLetterAJ_mem : ∀ (xs : List Char) (c : Char),
    firstLetterAJ xs = some c → letterAJ c = true := by
  intro xs
  induction xs with
  | nil => intro c h; exact absurd h (by simp [firstLetterAJ])
  | cons a rest ih =>
      intro c h
      unfold firstLetterAJ at h
      split at h
      · next hg =>
          obtain rfl := Option.some.inj h
          exact hg
      · exact ih c h

/-- The fallback branch always produces an alphabet letter. -/
theorem fallbackGuess_mem (fb : Except Unit String) :
    letterAJ (fallbackGuess fb) = true := by
  unfold fallbackGuess
  split
  · rfl
  · split
    · next heq => exact firstLetterAJ_mem _ _ heq
    · rfl

/-- C5: the spec's extraction scenarios hold, and `extract_answer` — a
total, deterministic function of its input string — returns, whenever it
returns anything, one of the ten letters A–J. -/
theorem extract_scenarios_and_alphabet :
    extract_answer "A." = some 'A' ∧
    extract_answer "The answer is C" = some 'C' ∧
    extract_answer "I think B is right" = some 'B' ∧
    extract_answer "blah blah" = none ∧
    (∀ (s : String) (c : Char), extract_answer s = some c →
        c ∈ ['A', 'B', 'C', 'D', 'E', 'F', 'G', 'H', 'I', 'J']) := by
  refine ⟨by decide, by decide, by decide, by decide, ?_⟩
  intro s c h
  have h2 : List.elem c ['A', 'B', 'C', 'D', 'E', 'F', 'G', 'H', 'I', 'J'] =
      true := extract_answer_mem s c h
  exact List.elem_iff.mp h2

/-- Witness for C5 applying the alphabet-membership conjunct at the
scenario input "The answer is C". -/
theorem extract_scenarios_and_alphabet_witness :
    'C' ∈ ['A', 'B', 'C', 'D', 'E', 'F', 'G', 'H', 'I', 'J'] :=
  extract_scenarios_and_alphabet.2.2.2.2 "The answer is C" 'C' (by decide)

/-- C4: `extract_answer_with_llm_fallback` always returns a member of the
ten-letter alphabet (never `none`, never another string): the regex
extraction when it yields a letter; otherwise the first alphabet
character of the one fallback call's response; and 'A' when the fallback
call fails or its response has no alphabet character. -/
theorem resolve_always_in_alphabet :
    (∀ (t : String) (fb : Except Unit String),
        extract_answer_with_llm_fallback t fb ∈
          ['A', 'B', 'C', 'D', 'E', 'F', 'G', 'H', 'I', 'J']) ∧
    (∀ (t : String) (fb : Except Unit String) (c : Char),
        extract_answer t = some c →
        extract_answer_with_llm_fallback t fb = c) ∧
    (∀ t : String, extract_answer t = none →
        extract_answer_with_llm_fallback t (.error ()) = 'A') ∧
    (∀ (t txt : String), extract_answer t = none →
        firstLetterAJ ((pyStripChars isSpaceChar txt.data).map Char.toUpper) =
          none →
        extract_answer_with_llm_fallback t (.ok txt) = 'A') ∧
    (∀ (t txt : String) (c : Char), extract_answer t = none →
        firstLetterAJ ((pyStripChars isSpaceChar txt.data).map Char.toUpper) =
          some c →
        extract_answer_with_llm_fallback t (.ok txt) = c) := by
  refine ⟨?_, ?_, ?_, ?_, ?_⟩
  · intro t fb
    have hm : letterAJ (extract_answer_with_llm_fallback t fb) = true := by
      unfold extract_answer_with_llm_fallback
      split
      · next e heq =>
          rw [if_pos (extract_answer_mem t e heq)]
          exact extract_answer_mem t e heq
      · exact fallbackGuess_mem fb
    have h2 : List.elem (extract_answer_with_llm_fallback t fb)
        ['A', 'B', 'C', 'D', 'E', 'F', 'G', 'H', 'I', 'J'] = true := hm
    exact List.elem_iff.mp h2
  · intro t fb c h
    unfold extract_answer_with_llm_fallback
    rw [h]
    show (if letterAJ c = true then c else fallbackGuess fb) = c
    rw [if_pos (extract_answer_mem t c h)]
  · intro t h
    unfold extract_answer_with_llm_fallback
    rw [h]
    rfl
  · intro t txt h hf
    unfold extract_answer_with_llm_fallback
    rw [h]
    show (match firstLetterAJ
        ((pyStripChars isSpaceChar txt.data).map Char.toUpper) with
      | some c => c
      | none => 'A') = 'A'
    rw [hf]
  · intro t txt c h hf
    unfold extract_answer_with_llm_fallback
    rw [h]
    show (match firstLetterAJ
        ((pyStripChars isSpaceChar txt.data).map Char.toUpper) with
      | some c => c
      | none => 'A') = c
    rw [hf]

/-- Witness for C4: the regex path, the failed-fallback default, the
letterless-fallback default, and the fallback-scan path, each at concrete
inputs. -/
theorem resolve_always_in_alphabet_witness :
    extract_answer_with_llm_fallback "The answer is C" (.error ()) = 'C' ∧
    extract_answer_with_llm_fallback "blah blah" (.error ()) = 'A' ∧
    extract_answer_with_llm_fallback "blah blah" (.ok "zz!") = 'A' ∧
    extract_answer_with_llm_fallback "blah blah" (.ok "xx d yy") = 'D' :=
  ⟨resolve_always_in_alphabet.2.1 "The answer is C" (.error ()) 'C'
      (by decide),
   resolve_always_in_alphabet.2.2.1 "blah blah" (by decide),
   resolve_always_in_alphabet.2.2.2.1 "blah blah" "zz!" (by decide)
      (by decide),
   resolve_always_in_alphabet.2.2.2.2 "blah blah" "xx d yy" 'D' (by decide)
      (by decide)⟩

/-! ## Helper lemmas: checkpoint save/load -/

/-- Serialising a `TestResult` and reconstructing it restores it
field-for-field. -/
theorem trOfDict_asdict (r : TestResult) : trOfDict (asdictTR r) = some r :=
  rfl

/-- Processing the record written by `save_question` for a truthy
(non-empty) id adds the id and appends exactly the two saved results. -/
theorem processLine_savedLine (st : CMState) (q : String) (hq : q ≠ "")
    (b sc : TestResult) :
    processLine st (savedLine q b sc) =
      some { completed_ids := insert q st.completed_ids,
             results := st.results ++ [b, sc] } := by
  simp [processLine, savedLine, appendResult, trOfDict_asdict, hq]

/-- The loader's loop decomposes over list append. -/
theorem runLines_append (xs : List Line) :
    ∀ (ys : List Line) (st : CMState),
      runLines st (xs ++ ys) =
        (runLines st xs).bind (fun st1 => runLines st1 ys) := by
  induction xs with
  | nil => intro ys st; rfl
  | cons l ls ih =>
      intro ys st
      cases hl : processLine st l with
      | none => simp [runLines, hl]
      | some st1 => simp only [List.cons_append, runLines, hl]; exact ih ys st1

/-- A malformed line anywhere makes the loader's loop raise. -/
theorem runLines_malformed (lines : List Line) :
    ∀ st : CMState, Line.malformed ∈ lines → runLines st lines = none := by
  induction lines with
  | nil => intro st h; exact absurd h (List.not_mem_nil _)
  | cons l ls ih =>
      intro st h
      rcases List.mem_cons.mp h with rfl | hmem
      · rfl
      · cases hl : processLine st l with
        | none => simp [runLines, hl]
        | some st1 => simp only [runLines, hl]; exact ih st1 hmem

/-- A processable line is survived from any state. -/
theorem processLine_ok (l : Line) (st : CMState) (h : lineOk l = true) :
    ∃ st1, processLine st l = some st1 := by
  cases l with
  | blank => exact ⟨st, rfl⟩
  | malformed => exact absurd h (by simp [lineOk])
  | obj qid b sc =>
      cases qid with
      | none => exact ⟨st, rfl⟩
      | some q =>
          by_cases hq : q = ""
          · exact ⟨st, by simp [processLine, hq]⟩
          · simp only [lineOk, Bool.and_eq_true] at h
            obtain ⟨hb, hsc⟩ := h
            simp only [processLine, if_neg hq]
            cases b with
            | none =>
                simp only [appendResult]
                cases sc with
                | none => exact ⟨_, rfl⟩
                | some d =>
                    obtain ⟨r, hr⟩ :=
                      Option.isSome_iff_exists.mp (by simpa using hsc)
                    simp [appendResult, hr]
            | some d =>
                obtain ⟨r, hr⟩ :=
                  Option.isSome_iff_exists.mp (by simpa using hb)
                simp only [appendResult, hr]
                cases sc with
                | none => exact ⟨_, rfl⟩
                | some d2 =>
                    obtain ⟨r2, hr2⟩ :=
                      Option.isSome_iff_exists.mp (by simpa using hsc)
                    simp [appendResult, hr2]

/-- A file of processable lines loads without the full reset. -/
theorem runLines_ok (lines : List Line) :
    ∀ st : CMState, (∀ l ∈ lines, lineOk l = true) →
      ∃ st1, runLines st lines = some st1 := by
  induction lines with
  | nil => intro st _; exact ⟨st, rfl⟩
  | cons l ls ih =>
      intro st h
      obtain ⟨st1, hl⟩ := processLine_ok l st (h l (List.mem_cons_self l ls))
      obtain ⟨st2, hls⟩ := ih st1 (fun x hx => h x (List.mem_cons_of_mem l hx))
      exact ⟨st2, by simp only [runLines, hl]; exact hls⟩

/-- Loading after a save on top of a loadable file yields exactly the
prior state extended with the saved question. -/
theorem load_after_save (file : List Line) (st : CMState) (q : String)
    (hq : q ≠ "") (b sc : TestResult)
    (h : runLines emptyCM file = some st) :
    load_existing (some (save_question file st q b sc).1) =
      { completed_ids := insert q st.completed_ids,
        results := st.results ++ [b, sc] } := by
  have hr : runLines emptyCM (file ++ [savedLine q b sc]) =
      some { completed_ids := insert q st.completed_ids,
             results := st.results ++ [b, sc] } := by
    rw [runLines_append file [savedLine q b sc] emptyCM, h]
    simp [runLines, processLine_savedLine st q hq b sc]
  simp [save_question, load_existing, hr]

/-- C3 counterexample: a checkpoint file holding one well-formed record
(for "q1") followed by one trailing malformed line.  The claim says the
load keeps the well-formed record and skips only the malformed line; the
code instead resets to the fully empty state, so "q1" is not reported
completed and no result survives. -/
theorem malformed_line_discards_good_records :
    load_existing (some [savedLine "q1" sampleTR sampleTR2,
        Line.malformed]) = emptyCM ∧
    is_completed (load_existing (some [savedLine "q1" sampleTR sampleTR2,
        Line.malformed])) "q1" = false ∧
    (load_existing (some [savedLine "q1" sampleTR sampleTR2,
        Line.malformed])).results = [] ∧
    processLine emptyCM (savedLine "q1" sampleTR sampleTR2) ≠ none := by
  have h1 : runLines emptyCM
      [savedLine "q1" sampleTR sampleTR2, Line.malformed] = none := by
    simp [runLines, processLine, savedLine, appendResult, trOfDict_asdict]
  have h2 : load_existing (some [savedLine "q1" sampleTR sampleTR2,
      Line.malformed]) = emptyCM := by
    simp [load_existing, h1]
  refine ⟨h2, ?_, ?_, ?_⟩
  · rw [h2]
    rfl
  · rw [h2]
    rfl
  · rw [processLine_savedLine emptyCM "q1" (by decide) sampleTR sampleTR2]
    simp

/-- C3 (amended): the loader never crashes, but its tolerance is
all-or-nothing rather than line-by-line: a missing file and any file
containing a malformed line both load as the fully empty state (well-
formed records in the same file are discarded too), while a file whose
every line is processable is reconstructed in full, the loop succeeding
with exactly the loaded state. -/
theorem load_survives_malformed_by_full_reset :
    load_existing none = emptyCM ∧
    (∀ lines : List Line, Line.malformed ∈ lines →
        load_existing (some lines) = emptyCM) ∧
    (∀ lines : List Line, (∀ l ∈ lines, lineOk l = true) →
        runLines emptyCM lines = some (load_existing (some lines))) := by
  refine ⟨rfl, ?_, ?_⟩
  · intro lines h
    simp [load_existing, runLines_malformed lines emptyCM h]
  · intro lines h
    obtain ⟨st1, hr⟩ := runLines_ok lines emptyCM h
    rw [hr]
    simp [load_existing, hr]

/-- Witness for the amended C3: a lone malformed line loads empty, and a
lone blank line is survived with the loop returning the loaded state. -/
theorem load_survives_malformed_by_full_reset_witness :
    load_existing (some [Line.malformed]) = emptyCM ∧
    runLines emptyCM [Line.blank] =
      some (load_existing (some [Line.blank])) :=
  ⟨load_survives_malformed_by_full_reset.2.1 [Line.malformed] (by decide),
   load_survives_malformed_by_full_reset.2.2 [Line.blank] (by decide)⟩

/-- C6 counterexample: at the empty question id the round-trip fails.
Saving Q = "" on a fresh store writes a record, but the loader's
`if question_id:` truthiness test skips it, so a fresh manager on the
written file reports the question not completed with no results — the
universally quantified round-trip claim is false at this input (the
prior file, here empty, is loadable: the third conjunct). -/
theorem empty_id_breaks_roundtrip :
    is_completed (load_existing (some (save_question [] emptyCM ""
        sampleTR sampleTR2).1)) "" = false ∧
    (load_existing (some (save_question [] emptyCM ""
        sampleTR sampleTR2).1)).results = [] ∧
    runLines emptyCM ([] : List Line) = some emptyCM := by
  have h1 : runLines emptyCM [savedLine "" sampleTR sampleTR2] =
      some emptyCM := by
    simp [runLines, processLine, savedLine]
  have h2 : load_existing (some (save_question [] emptyCM ""
      sampleTR sampleTR2).1) = emptyCM := by
    simp [save_question, load_existing, h1]
  refine ⟨?_, ?_, rfl⟩
  · rw [h2]
    rfl
  · rw [h2]
    rfl

/-- C6 (amended): save/load round-trip for truthy (non-empty) question
ids — the loader ignores a saved record whose id is the empty string, so
the round-trip holds for every non-empty id.  Saving question Q ≠ "" on
top of any loadable file and constructing a fresh manager on the
extended file reports Q completed, with the loaded result list extending
the prior one by exactly the two saved `TestResult`s (so field-for-field
identical copies are present); and two sequential saves of distinct
non-empty ids from a fresh store followed by a fresh load yield a
completed-set of size 2 and a result list of size 4. -/
theorem save_then_fresh_load_roundtrip :
    (∀ (file : List Line) (st : CMState) (q : String) (b sc : TestResult),
        q ≠ "" →
        runLines emptyCM file = some st →
        is_completed
          (load_existing (some (save_question file st q b sc).1)) q = true ∧
        (load_existing (some (save_question file st q b sc).1)).results =
          st.results ++ [b, sc] ∧
        b ∈ (load_existing (some (save_question file st q b sc).1)).results ∧
        sc ∈ (load_existing (some (save_question file st q b sc).1)).results) ∧
    (∀ (q1 q2 : String) (b1 sc1 b2 sc2 : TestResult),
        q1 ≠ "" → q2 ≠ "" → q1 ≠ q2 →
        (load_existing (some (save_question
            (save_question [] emptyCM q1 b1 sc1).1
            (save_question [] emptyCM q1 b1 sc1).2
            q2 b2 sc2).1)).completed_ids.card = 2 ∧
        (load_existing (some (save_question
            (save_question [] emptyCM q1 b1 sc1).1
            (save_question [] emptyCM q1 b1 sc1).2
            q2 b2 sc2).1)).results.length = 4) := by
  constructor
  · intro file st q b sc hq h
    rw [load_after_save file st q hq b sc h]
    refine ⟨?_, rfl, ?_, ?_⟩
    · simp [is_completed]
    · simp
    · simp
  · intro q1 q2 b1 sc1 b2 sc2 hq1 hq2 hne
    have h1 : runLines emptyCM (save_question [] emptyCM q1 b1 sc1).1 =
        some (save_question [] emptyCM q1 b1 sc1).2 := by
      simp [save_question, runLines,
        processLine_savedLine emptyCM q1 hq1 b1 sc1]
    rw [load_after_save _ _ q2 hq2 b2 sc2 h1]
    constructor
    · have hq2m : q2 ∉ (save_question [] emptyCM q1 b1 sc1).2.completed_ids := by
        simp only [save_question, emptyCM, Finset.mem_insert,
          Finset.not_mem_empty, or_false]
        exact fun h => hne h.symm
      rw [Finset.card_insert_of_not_mem hq2m]
      simp [save_question, emptyCM]
    · simp [save_question, emptyCM]

/-- Witness for C6: one save with id "q1" on an empty file, and the
two-save scenario with the distinct non-empty ids "q1" and "q2". -/
theorem save_then_fresh_load_roundtrip_witness :
    (is_completed
        (load_existing (some (save_question [] emptyCM "q1" sampleTR
          sampleTR2).1)) "q1" = true ∧
      (load_existing (some (save_question [] emptyCM "q1" sampleTR
          sampleTR2).1)).results = emptyCM.results ++ [sampleTR, sampleTR2] ∧
      sampleTR ∈ (load_existing (some (save_question [] emptyCM "q1"
          sampleTR sampleTR2).1)).results ∧
      sampleTR2 ∈ (load_existing (some (save_question [] emptyCM "q1"
          sampleTR sampleTR2).1)).results) ∧
    ((load_existing (some (save_question
        (save_question [] emptyCM "q1" sampleTR sampleTR2).1
        (save_question [] emptyCM "q1" sampleTR sampleTR2).2
        "q2" sampleTR sampleTR2).1)).completed_ids.card = 2 ∧
      (load_existing (some (save_question
        (save_question [] emptyCM "q1" sampleTR sampleTR2).1
        (save_question [] emptyCM "q1" sampleTR sampleTR2).2
        "q2" sampleTR sampleTR2).1)).results.length = 4) :=
  ⟨save_then_fresh_load_roundtrip.1 [] emptyCM "q1" sampleTR sampleTR2
     (by decide) rfl,
   save_then_fresh_load_roundtrip.2 "q1" "q2" sampleTR sampleTR2 sampleTR
     sampleTR2 (by decide) (by decide) (by decide)⟩

/-- C7: `aggregate_results` groups the results by condition and computes,
per condition, accuracy = correct/total × 100 and cost-per-correct =
total cost / correct count when the correct count is positive — and the
distinguished undefined sentinel, never a division fault, when the
correct count is zero. -/
theorem aggregation_never_divides_by_zero :
    ∀ (results : List TestResult) (c : String) (m : AggregatedMetrics),
      (c, m) ∈ aggregate_results results →
      m.condition = c ∧
      m.total_questions =
        (results.filter (fun r => r.condition == c)).length ∧
      m.correct_count = ((results.filter (fun r => r.condition == c)).filter
        (fun r => r.is_correct)).length ∧
      m.total_cost_usd =
        ((results.filter (fun r => r.condition == c)).map
          (fun r => r.cost_usd)).sum ∧
      (0 < m.total_questions →
        m.accuracy_pct =
          (m.correct_count : ℚ) / (m.total_questions : ℚ) * 100) ∧
      (0 < m.correct_count →
        m.cost_per_correct_usd =
          some (m.total_cost_usd / (m.correct_count : ℚ))) ∧
      (m.correct_count = 0 → m.cost_per_correct_usd = none) := by
  intro results c m hm
  unfold aggregate_results at hm
  obtain ⟨c1, hc1, heq⟩ := List.mem_map.mp hm
  have h1 : c1 = c := congrArg Prod.fst heq
  subst h1
  have h2 : aggregateOne c1
      (results.filter (fun r => r.condition == c1)) = m :=
    congrArg Prod.snd heq
  subst h2
  refine ⟨rfl, rfl, rfl, rfl, ?_, ?_, ?_⟩
  · intro h
    simp only [aggregateOne] at h ⊢
    rw [if_pos h]
  · intro h
    simp only [aggregateOne] at h ⊢
    rw [if_pos h]
  · intro h
    simp only [aggregateOne] at h ⊢
    rw [if_neg (by omega)]

/-- Witness for C7: one correct baseline result; cost-per-correct is the
defined quotient. -/
theorem aggregation_never_divides_by_zero_witness :
    (aggregateOne "baseline"
        ([sampleTR].filter
          (fun r => r.condition == "baseline"))).cost_per_correct_usd =
      some ((aggregateOne "baseline"
          ([sampleTR].filter
            (fun r => r.condition == "baseline"))).total_cost_usd /
        ((aggregateOne "baseline"
          ([sampleTR].filter
            (fun r => r.condition == "baseline"))).correct_count : ℚ)) :=
  (aggregation_never_divides_by_zero [sampleTR] "baseline" _
      (by rw [show aggregate_results [sampleTR] =
          [("baseline", aggregateOne "baseline"
            (List.filter (fun r => r.condition == "baseline") [sampleTR]))]
          from rfl]
          exact List.mem_singleton.mpr rfl)).2.2.2.2.2.1 (by decide)
